import Mathlib

/-!
# Verification of the maestro mission orchestration core

Shallow embedding of `maestro_backend/ai_researcher/agentic_layer/async_context_manager.py`
(the `MissionContext` record, the module-level `sanitize_for_jsonb` scrubber and the
`AsyncContextManager` operations), together with proofs of the specified properties.

Conventions of the embedding:
* Python dicts with string keys become association lists `List (String × α)` with
  first-match lookup; assignment (`d[k] = v`) is `insertStr` (overwrite-in-place or append),
  deletion (`del d[k]`) is `removeStr`, and `dict.update` folds `insertStr` over the
  right-hand dict in iteration order, exactly as CPython does.
* Python floats are modelled as rationals (`ℚ`); all values handled by the claims are
  small integers, on which binary floating point is exact.
* Fallible operations (a raised exception) return `Option`/an error branch; fire-and-forget
  database and websocket work is external, so a database write carries a `dbOk : Bool`
  input telling whether the external store accepted it, and only code paths whose in-memory
  behaviour depends on the outcome inspect it.
* Clock reads (`get_current_time`, `time.time()`) become explicit `now` parameters.
-/

namespace Maestro

/-! ## String-keyed association maps (CPython dict semantics) -/

/-- First-match lookup in an association list (Python `d.get(k)` / `k in d`). -/
def lookupStr {α : Type} : List (String × α) → String → Option α
  | [], _ => Option.none
  | (k, v) :: rest, key => if k = key then some v else lookupStr rest key

/-- Python `d[k] = v`: overwrite the binding in place if the key exists, else append. -/
def insertStr {α : Type} : List (String × α) → String → α → List (String × α)
  | [], key, val => [(key, val)]
  | (k, v) :: rest, key, val =>
      if k = key then (k, val) :: rest else (k, v) :: insertStr rest key val

/-- Python `del d[k]`: drop the key's binding.  A Python dict holds each key at most
once, so dropping every binding of the key is the same operation on any list that
represents a dict. -/
def removeStr {α : Type} : List (String × α) → String → List (String × α)
  | [], _ => []
  | (k, v) :: rest, key =>
      if k = key then removeStr rest key else (k, v) :: removeStr rest key

/-! ## Python values

JSON-ish Python values as they flow through `sanitize_for_jsonb` and the checkpoint
payloads.  Dict keys are strings (the payloads crossing the JSONB boundary are
string-keyed); note that `sanitize_for_jsonb` rebuilds a dict as
`{k: sanitize_for_jsonb(v) for k, v in obj.items()}`, leaving keys untouched. -/

inductive PyVal where
  | str (s : String)
  | num (q : ℚ)
  | bool (b : Bool)
  | pyNone
  | dict (entries : List (String × PyVal))
  | list (items : List PyVal)
  | tuple (items : List PyVal)

/-- CPython truthiness for the values of `PyVal` (`if obj:`). -/
def pyTruthy : PyVal → Bool
  | .str s => s ≠ ""
  | .num q => q ≠ 0
  | .bool b => b
  | .pyNone => false
  | .dict entries => !entries.isEmpty
  | .list items => !items.isEmpty
  | .tuple items => !items.isEmpty

/-- Characters removed by the `re.sub(r'[\x00-\x08\x0B\x0C\x0E-\x1F]', '', obj)` call in
`sanitize_for_jsonb`. -/
def removedChar (c : Char) : Bool :=
  (c.toNat ≤ 0x08) || (c.toNat == 0x0B) || (c.toNat == 0x0C) ||
    (0x0E ≤ c.toNat && c.toNat ≤ 0x1F)

/-- The string case of `sanitize_for_jsonb`: drop exactly the characters matched by the
regex, keeping everything else in order. -/
def sanitizeString (s : String) : String :=
  ⟨s.data.filter (fun c => !removedChar c)⟩

/-- `sanitize_for_jsonb` (module level helper in `async_context_manager.py`): scrub strings,
recurse into dict values, list items and tuple items, and return every other value as-is. -/
def sanitize_for_jsonb : PyVal → PyVal
  | .str s => .str (sanitizeString s)
  | .dict entries => .dict (sanitizeEntries entries)
  | .list items => .list (sanitizeItems items)
  | .tuple items => .tuple (sanitizeItems items)
  | .num q => .num q
  | .bool b => .bool b
  | .pyNone => .pyNone
where
  /-- dict case: `{k: sanitize_for_jsonb(v) for k, v in obj.items()}` (keys untouched). -/
  sanitizeEntries : List (String × PyVal) → List (String × PyVal)
    | [] => []
    | (k, v) :: rest => (k, sanitize_for_jsonb v) :: sanitizeEntries rest
  /-- list/tuple case: `[sanitize_for_jsonb(item) for item in obj]`. -/
  sanitizeItems : List PyVal → List PyVal
    | [] => []
    | v :: rest => sanitize_for_jsonb v :: sanitizeItems rest

/-! ## Injectivity of decimal numerals

The reference allocator mints ids of the form `"ref" ++ Nat.repr n` (Python
`f"ref{self.reference_counter}"`).  To show a freshly minted id can never collide with an
existing one we prove `Nat.repr` injective, via an explicit decimal decoder that is a left
inverse of `Nat.toDigits 10`. -/

/-- Value of a decimal digit character (`'0'` … `'9'`). -/
def digitVal (c : Char) : Nat := c.toNat - 48

/-- Decode a most-significant-first decimal digit string. -/
def decDigits (l : List Char) : Nat := l.foldl (fun a c => 10 * a + digitVal c) 0

/-! ## Mission data model (`MissionContext` and friends) -/

/-- `MissionStatus = Literal["planning", "running", "completed", "failed", "paused", "stopped"]`. -/
inductive MissionStatus where
  | planning | running | completed | failed | paused | stopped
deriving DecidableEq, Repr

/-- Status literal of an `ExecutionLogEntry`. -/
inductive LogStatus where
  | success | failure | warning | running
deriving DecidableEq, Repr

/-- One step of the mission execution log (schema `ExecutionLogEntry`).
The `log_id` (a fresh uuid) is supplied by the caller of the embedded operation. -/
structure ExecutionLogEntry where
  log_id : String
  timestamp : ℚ
  agent_name : String
  action : String
  input_summary : Option String := Option.none
  output_summary : Option String := Option.none
  status : LogStatus := .success
  error_message : Option String := Option.none
  full_input : Option PyVal := Option.none
  full_output : Option PyVal := Option.none
  model_details : Option PyVal := Option.none
  tool_calls : Option PyVal := Option.none
  file_interactions : Option (List String) := Option.none

/-- The slice of `SimplifiedPlan` the embedded operations look at
(`get_resume_checkpoint` reads `plan.research_sections`). -/
structure SimplifiedPlan where
  research_sections : List PyVal := []

/-- `MissionContext`: the in-memory state of one mission.  Fields whose content the
embedded operations never inspect (step results, notes, pads, …) are carried with the
payload types above so the operations can still read lengths and presence. -/
structure MissionContext where
  mission_id : String
  user_request : String
  status : MissionStatus := .planning
  plan : Option SimplifiedPlan := Option.none
  notes : List PyVal := []
  report_content : List (String × String) := []
  created_at : ℚ
  updated_at : ℚ
  error_info : Option String := Option.none
  execution_log : List ExecutionLogEntry := []
  metadata : List (String × PyVal) := []
  mission_settings : Option PyVal := Option.none
  document_group_id : Option String := Option.none
  document_group_name : Option String := Option.none
  use_web_search : Bool := true
  llm_config : Option PyVal := Option.none
  research_params : Option PyVal := Option.none
  total_cost : ℚ := 0
  total_tokens_prompt : Int := 0
  total_tokens_completion : Int := 0
  total_tokens_native : Int := 0
  total_web_searches : Int := 0
  execution_phase : String := "not_started"
  completed_phases : List String := []
  phase_checkpoint : List (String × PyVal) := []
  reference_id_map : List (String × String) := []
  reverse_reference_map : List (String × String) := []
  reference_counter : Nat := 0

namespace MissionContext

/-- `update_timestamp` (`self.updated_at = get_current_time()`). -/
def update_timestamp (m : MissionContext) (now : ℚ) : MissionContext :=
  { m with updated_at := now }

/-- `get_simple_reference_id`: return the cached short id, or mint `f"ref{counter+1}"`,
record it in both maps, and return it (the trailing `return self.reference_id_map[original_id]`
reads back exactly the id just inserted). -/
def get_simple_reference_id (m : MissionContext) (original_id : String) :
    String × MissionContext :=
  match lookupStr m.reference_id_map original_id with
  | some simple_id => (simple_id, m)
  | Option.none =>
      let ctr := m.reference_counter + 1
      let simple_id := "ref" ++ Nat.repr ctr
      (simple_id,
        { m with
          reference_counter := ctr
          reference_id_map := insertStr m.reference_id_map original_id simple_id
          reverse_reference_map := insertStr m.reverse_reference_map simple_id original_id })

/-- `get_original_reference_id`: `self.reverse_reference_map.get(simple_id)`. -/
def get_original_reference_id (m : MissionContext) (simple_id : String) : Option String :=
  lookupStr m.reverse_reference_map simple_id

end MissionContext

/-! ## AsyncContextManager state -/

/-- One mission's entry of `self.mission_stats` (cumulative usage counters). -/
structure MissionStats where
  total_cost : ℚ := 0
  total_prompt_tokens : ℚ := 0
  total_completion_tokens : ℚ := 0
  total_native_tokens : ℚ := 0
  total_web_search_calls : Int := 0
deriving DecidableEq, Repr

/-- The mutable fields of `AsyncContextManager`: the mission cache, the per-mission stats,
the per-mission semaphores (modelled by their configured capacity) and the set of already
applied call ids. -/
structure ContextManagerState where
  missions : List (String × MissionContext) := []
  mission_stats : List (String × MissionStats) := []
  mission_semaphores : List (String × Int) := []
  tracked_calls : List String := []

/-- `self.tracked_calls.add(call_id)` (set insertion). -/
def addTracked (l : List String) (c : String) : List String :=
  if c ∈ l then l else c :: l

/-- CPython truthiness of an optional string (`if not call_id`, `if not mission_id`). -/
def pyStrTruthy : Option String → Bool
  | Option.none => false
  | some s => s ≠ ""

/-- Python `int()` on a float value: truncation toward zero. -/
def pyIntTrunc (q : ℚ) : Int := if 0 ≤ q then ⌊q⌋ else -⌊-q⌋

/-! ## Lifecycle operations -/

namespace ContextManagerState

/-- `get_mission_context`: in-memory lookup; missing ids are reported (logged) as `None`. -/
def get_mission_context (st : ContextManagerState) (mission_id : String) :
    Option MissionContext :=
  lookupStr st.missions mission_id

/-- `get_mission_semaphore`: lazily create the per-mission semaphore.  The default
capacity when the caller passes no limit is `max(3, user_max // 2) if user_max > 0 else 10`,
where `user_max` is the user's `max_concurrent_requests` setting (an external input).
Returns the capacity together with the updated state. -/
def get_mission_semaphore (st : ContextManagerState) (mission_id : String)
    (max_concurrent : Option Int) (user_max : Int) : Int × ContextManagerState :=
  match lookupStr st.mission_semaphores mission_id with
  | some cap => (cap, st)
  | Option.none =>
      let cap := match max_concurrent with
        | some c => c
        | Option.none => if user_max > 0 then max 3 (Int.fdiv user_max 2) else 10
      (cap, { st with mission_semaphores := insertStr st.mission_semaphores mission_id cap })

/-- `start_mission`: build the fresh `MissionContext` (fresh uuid `new_mission_id`,
`metadata["chat_id"] = chat_id`), put it in the in-memory cache, then write it to the
store.  If the store write fails the mission is deleted from the cache again and the
exception is re-raised (`del self._missions[...]; raise`). -/
def start_mission (st : ContextManagerState) (user_request chat_id : String)
    (document_group_id document_group_name : Option String) (use_web_search : Bool)
    (mission_settings llm_config research_params : Option PyVal)
    (new_mission_id : String) (now : ℚ) (dbOk : Bool) :
    ContextManagerState × Except String MissionContext :=
  let mission : MissionContext := {
    mission_id := new_mission_id
    user_request := user_request
    created_at := now
    updated_at := now
    document_group_id := document_group_id
    document_group_name := document_group_name
    use_web_search := use_web_search
    mission_settings := mission_settings
    llm_config := llm_config
    research_params := research_params
    metadata := insertStr [] "chat_id" (.str chat_id) }
  let st1 := { st with missions := insertStr st.missions new_mission_id mission }
  if dbOk then (st1, .ok mission)
  else ({ st1 with missions := removeStr st1.missions new_mission_id },
        .error "Database error creating mission")

/-- `update_mission_status`: set the status, set `error_info` only when failing
(`error_info if status == "failed" else None`), bump the timestamp, and delete the
mission's semaphore when the new status is `completed` or `failed`.  The store write and
websocket push are wrapped in `try/except` and have no in-memory effect, so `dbOk` is
ignored here. -/
def update_mission_status (st : ContextManagerState) (mission_id : String)
    (status : MissionStatus) (error_info : Option String) (now : ℚ)
    (dbOk : Bool) : ContextManagerState :=
  match lookupStr st.missions mission_id with
  | Option.none => st
  | some m =>
      let m1 := { m with
        status := status
        error_info := if status = .failed then error_info else Option.none
        updated_at := now }
      let sems :=
        if (status = .completed ∨ status = .failed) ∧
            (lookupStr st.mission_semaphores mission_id).isSome then
          removeStr st.mission_semaphores mission_id
        else st.mission_semaphores
      let _ := dbOk
      { st with missions := insertStr st.missions mission_id m1, mission_semaphores := sems }

/-- `mark_phase_completed`: append the phase to `completed_phases` only if absent;
present phases are a complete no-op (not even a timestamp bump). -/
def mark_phase_completed (st : ContextManagerState) (mission_id phase : String)
    (now : ℚ) : ContextManagerState :=
  match lookupStr st.missions mission_id with
  | Option.none => st
  | some m =>
      if phase ∈ m.completed_phases then st
      else
        let m1 := { m with
          completed_phases := m.completed_phases ++ [phase]
          updated_at := now }
        { st with missions := insertStr st.missions mission_id m1 }

/-- Python `dict.update(other)`: fold assignment over `other` in iteration order. -/
def dictUpdate (d other : List (String × PyVal)) : List (String × PyVal) :=
  other.foldl (fun acc kv => insertStr acc kv.1 kv.2) d

/-- `save_phase_checkpoint`: ensure `phase_checkpoint[phase]` exists (`= {}` when absent),
then shallow-merge via `phase_checkpoint[phase].update(checkpoint_data)`.  Calling
`.update` on a non-dict value raises `AttributeError`, modelled by `Option.none`. -/
def save_phase_checkpoint (st : ContextManagerState) (mission_id phase : String)
    (checkpoint_data : List (String × PyVal)) (now : ℚ) :
    Option ContextManagerState :=
  match lookupStr st.missions mission_id with
  | Option.none => some st
  | some m =>
      let pc0 :=
        if (lookupStr m.phase_checkpoint phase).isSome then m.phase_checkpoint
        else insertStr m.phase_checkpoint phase (.dict [])
      match lookupStr pc0 phase with
      | some (.dict d) =>
          let m1 := { m with
            phase_checkpoint := insertStr pc0 phase (.dict (dictUpdate d checkpoint_data))
            updated_at := now }
          some { st with missions := insertStr st.missions mission_id m1 }
      | _ => Option.none

end ContextManagerState

/-! ## Phase scheduling (`get_resume_checkpoint`, `get_next_phase`) -/

/-- String rendering of a log status literal. -/
def logStatusStr : LogStatus → String
  | .success => "success"
  | .failure => "failure"
  | .warning => "warning"
  | .running => "running"

/-- The fixed phase order of `get_next_phase`. -/
def phase_order : List String :=
  ["initial_analysis", "initial_research", "outline_generation", "structured_research",
   "note_preparation", "writing", "title_generation", "citation_processing", "completed"]

namespace ContextManagerState

/-- `get_resume_checkpoint`: assemble the crash-resume summary dict ( `{}` for unknown
missions).  Keys follow the source construction order, with `last_activity` rewritten
from the last execution-log entry and `structured_research_progress` added for an
interrupted structured-research phase with a plan. -/
def get_resume_checkpoint (st : ContextManagerState) (mission_id : String) :
    List (String × PyVal) :=
  match lookupStr st.missions mission_id with
  | Option.none => []
  | some m =>
      let ck : List (String × PyVal) := [
        ("current_phase", .str m.execution_phase),
        ("completed_phases", .list (m.completed_phases.map .str)),
        ("phase_checkpoint", .dict m.phase_checkpoint),
        ("has_plan", .bool m.plan.isSome),
        ("notes_count", .num m.notes.length),
        ("sections_written",
          .list (if m.report_content.isEmpty then []
                 else m.report_content.map (fun kv => .str kv.1))),
        ("last_activity", .pyNone)]
      let ck := match m.execution_log.getLast? with
        | some lastLog =>
            insertStr ck "last_activity" (.dict [
              ("agent", .str lastLog.agent_name),
              ("action", .str lastLog.action),
              ("timestamp", .num lastLog.timestamp),
              ("status", .str (logStatusStr lastLog.status))])
        | Option.none => ck
      if m.execution_phase = "structured_research" ∧ m.plan.isSome then
        insertStr ck "structured_research_progress" (.dict [
          ("completed_sections", (lookupStr m.phase_checkpoint "completed_sections").getD (.list [])),
          ("sections_in_progress", (lookupStr m.phase_checkpoint "sections_in_progress").getD (.dict [])),
          ("total_sections", .num (match m.plan with
            | some p => if p.research_sections.isEmpty then 0 else p.research_sections.length
            | Option.none => 0))])
      else ck

end ContextManagerState

/-- The first in-order phase with checkpoint data that is not completed
(`if phase_name in mission.phase_checkpoint and phase_name not in mission.completed_phases`,
then `if phase_data: return phase_name`). -/
def findInProgressPhase (m : MissionContext) : List String → Option String
  | [] => Option.none
  | p :: rest =>
      match lookupStr m.phase_checkpoint p with
      | some v =>
          if p ∉ m.completed_phases ∧ pyTruthy v then some p
          else findInProgressPhase m rest
      | Option.none => findInProgressPhase m rest

/-- The final loop of `get_next_phase`: first phase of the order absent from
`completed_phases`, else the trailing `return "completed"`. -/
def nextUncompletedPhase (m : MissionContext) : List String → String
  | [] => "completed"
  | p :: rest => if p ∈ m.completed_phases then nextUncompletedPhase m rest else p

/-- `checkpoint.get('phase')` with its truthiness test; the stored value, when present,
would be a phase-name string. -/
def checkpointPhaseStr (ck : List (String × PyVal)) : Option String :=
  match lookupStr ck "phase" with
  | some (.str s) => if s = "" then Option.none else some s
  | _ => Option.none

namespace ContextManagerState

/-- `get_next_phase`: `None` for unknown missions; else the first in-progress
(non-empty checkpoint, not completed) phase in order; else the phase named by the resume
checkpoint's `phase` entry when not completed; else the first uncompleted phase of the
order, with `"completed"` as terminal fallback. -/
def get_next_phase (st : ContextManagerState) (mission_id : String) : Option String :=
  match lookupStr st.missions mission_id with
  | Option.none => Option.none
  | some m =>
      match findInProgressPhase m phase_order with
      | some p => some p
      | Option.none =>
          let ck := st.get_resume_checkpoint mission_id
          match (if ck.isEmpty then Option.none else checkpointPhaseStr ck) with
          | some cp =>
              if cp ∉ m.completed_phases then some cp
              else some (nextUncompletedPhase m phase_order)
          | Option.none => some (nextUncompletedPhase m phase_order)

end ContextManagerState

/-! ## Execution logging and stats aggregation -/

/-- Actions still logged while a mission is paused or stopped. -/
def allowedWhenHalted : List String := ["Pause Mission", "Stop Mission", "Resume Mission"]

/-- `sanitize_for_jsonb(_make_serializable(x)) if x else None`; `mkSer` stands for the
external `_make_serializable` collaborator. -/
def serializeDetail (mkSer : PyVal → PyVal) : Option PyVal → Option PyVal
  | some v => if pyTruthy v then some (sanitize_for_jsonb (mkSer v)) else Option.none
  | Option.none => Option.none

namespace ContextManagerState

/-- `log_execution_step`: drop the entry silently when the mission is paused/stopped and
the action is not one of the pause/stop/resume actions; otherwise sanitize the detailed
payloads, append the entry to `execution_log` and bump the timestamp.  Store and
websocket work is external.  `new_log_id`/`now` stand for the fresh uuid and clock
read inside `ExecutionLogEntry`'s field defaults. -/
def log_execution_step (st : ContextManagerState) (mission_id agent_name action : String)
    (input_summary output_summary : Option String) (status : LogStatus)
    (error_message : Option String) (full_input full_output : Option PyVal)
    (model_details : Option PyVal) (tool_calls : Option PyVal)
    (file_interactions : Option (List String)) (mkSer : PyVal → PyVal)
    (now : ℚ) (new_log_id : String) : ContextManagerState :=
  match lookupStr st.missions mission_id with
  | Option.none => st
  | some m =>
      if (m.status = .paused ∨ m.status = .stopped) ∧ action ∉ allowedWhenHalted then st
      else
        let fi : Option (List String) := match file_interactions with
          | some l => if l.isEmpty then Option.none else some (l.map sanitizeString)
          | Option.none => Option.none
        let entry : ExecutionLogEntry := {
          log_id := new_log_id
          timestamp := now
          agent_name := agent_name
          action := action
          input_summary := input_summary
          output_summary := output_summary
          status := status
          error_message := error_message
          full_input := serializeDetail mkSer full_input
          full_output := serializeDetail mkSer full_output
          model_details := serializeDetail mkSer model_details
          tool_calls := serializeDetail mkSer tool_calls
          file_interactions := fi }
        let m1 := { m with execution_log := m.execution_log ++ [entry], updated_at := now }
        { st with missions := insertStr st.missions mission_id m1 }

end ContextManagerState

/-- The `model_details` dict handed to `update_mission_stats`: every field mirrors one
`model_details.get(...)` read (`web_search_count` defaults to 0, so a missing key and an
explicit 0 coincide). -/
structure ModelDetails where
  call_id : Option String := Option.none
  cost : Option ℚ := Option.none
  prompt_tokens : Option ℚ := Option.none
  completion_tokens : Option ℚ := Option.none
  native_total_tokens : Option ℚ := Option.none
  web_search_count : Int := 0
  timestamp : Option ℚ := Option.none
  duration_sec : Option ℚ := Option.none
  model_name : Option String := Option.none
  agent_logged : Bool := false
  agent_mode : Option String := Option.none

/-- Render the `model_details` dict as a `PyVal` (present keys only) for the log entry
payload written by the non-agent audit branch. -/
def ModelDetails.toPy (d : ModelDetails) : PyVal :=
  .dict (
    (match d.call_id with | some c => [("call_id", PyVal.str c)] | Option.none => []) ++
    (match d.cost with | some q => [("cost", PyVal.num q)] | Option.none => []) ++
    (match d.prompt_tokens with | some q => [("prompt_tokens", PyVal.num q)] | Option.none => []) ++
    (match d.completion_tokens with | some q => [("completion_tokens", PyVal.num q)] | Option.none => []) ++
    (match d.native_total_tokens with | some q => [("native_total_tokens", PyVal.num q)] | Option.none => []) ++
    [("web_search_count", PyVal.num d.web_search_count)] ++
    (match d.timestamp with | some q => [("timestamp", PyVal.num q)] | Option.none => []) ++
    (match d.duration_sec with | some q => [("duration_sec", PyVal.num q)] | Option.none => []) ++
    (match d.model_name with | some s => [("model_name", PyVal.str s)] | Option.none => []) ++
    (if d.agent_logged then [("agent_logged", PyVal.bool true)] else []) ++
    (match d.agent_mode with | some s => [("agent_mode", PyVal.str s)] | Option.none => []))

/-- The allow-list `non_agent_modes` of `update_mission_stats`. -/
def nonAgentModes : List (String × (String × String)) :=
  [("query_preparation", ("QueryPreparer", "Query Preparation")),
   ("router", ("Router", "Routing Decision")),
   ("query_strategy", ("QueryStrategy", "Strategy Selection"))]

/-- Lines 1563–1577 of `update_mission_stats`: linear accumulation of cost, prompt,
completion and web-search counters, then the native-token rule — a combined-only report
(`native > 0`, prompt and completion both 0) accumulates independently, while any
granular report redefines the native total as running prompt + running completion. -/
def applyStatIncrements (s : MissionStats)
    (cost_increment prompt_increment completion_increment native_increment : ℚ)
    (web_search_increment : Int) : MissionStats :=
  let s1 := { s with
    total_cost := s.total_cost + cost_increment
    total_prompt_tokens := s.total_prompt_tokens + prompt_increment
    total_completion_tokens := s.total_completion_tokens + completion_increment
    total_web_search_calls := s.total_web_search_calls + web_search_increment }
  if native_increment > 0 ∧ prompt_increment = 0 ∧ completion_increment = 0 then
    { s1 with total_native_tokens := s1.total_native_tokens + native_increment }
  else if prompt_increment > 0 ∨ completion_increment > 0 then
    { s1 with total_native_tokens := s1.total_prompt_tokens + s1.total_completion_tokens }
  else s1

namespace ContextManagerState

/-- Tail of `update_mission_stats`: `mission = self.get_mission_context(mission_id)`,
then copy the accumulated totals into the mission record (`int()` truncation on the token
counters) and bump its timestamp; unknown missions are left alone. -/
def copyStatsToMission (stx : ContextManagerState) (mid : String) (stats1 : MissionStats)
    (now : ℚ) : ContextManagerState :=
  match lookupStr stx.missions mid with
  | some m =>
      let m1 := { m with
        total_cost := stats1.total_cost
        total_tokens_prompt := pyIntTrunc stats1.total_prompt_tokens
        total_tokens_completion := pyIntTrunc stats1.total_completion_tokens
        total_tokens_native := pyIntTrunc stats1.total_native_tokens
        total_web_searches := stats1.total_web_search_calls
        updated_at := now }
      { stx with missions := insertStr stx.missions mid m1 }
  | Option.none => stx

/-- `update_mission_stats`: guard on a truthy mission id and details; take the caller's
`call_id` or synthesize `f"{model_name}_{timestamp}_{duration}"`; unless forced, silently
drop already-tracked call ids; track the call id; drop empty payloads; accumulate the
increments into `mission_stats`; possibly append one audit log entry for allow-listed
non-agent modes; finally copy the totals into the mission record. `has_log_queue` /
`has_update_callback` tell whether the optional `log_queue` / `update_callback`
arguments were supplied.  A `model_details` dict with no keys at all is falsy in Python
exactly like a missing argument, so both are represented by `Option.none`. -/
def update_mission_stats (st : ContextManagerState) (mission_id : Option String)
    (model_details : Option ModelDetails) (has_log_queue has_update_callback : Bool)
    (force_update : Bool) (mkSer : PyVal → PyVal) (now : ℚ) (new_log_id : String) :
    ContextManagerState :=
  match mission_id, model_details with
  | some mid, some d0 =>
    if mid = "" then st
    else
      -- call_id = model_details.get("call_id"); synthesize when falsy and not forced,
      -- writing the synthesized id back into model_details
      let synth := (d0.model_name.getD "unknown") ++ "_" ++
        toString (d0.timestamp.getD now) ++ "_" ++ toString (d0.duration_sec.getD 0)
      let synthesize := !pyStrTruthy d0.call_id && !force_update
      let call_id : Option String := if synthesize then some synth else d0.call_id
      let d := if synthesize then { d0 with call_id := some synth } else d0
      if !force_update && (match call_id with
          | some c => decide (c ∈ st.tracked_calls)
          | Option.none => false) then st
      else
        let tracked := match call_id with
          | some c => if c = "" then st.tracked_calls else addTracked st.tracked_calls c
          | Option.none => st.tracked_calls
        if d.cost = Option.none ∧ d.prompt_tokens = Option.none ∧
            d.completion_tokens = Option.none ∧ d.native_total_tokens = Option.none ∧
            d.web_search_count = 0 then
          { st with tracked_calls := tracked }
        else
          let stats0 := (lookupStr st.mission_stats mid).getD {}
          let cost_increment := d.cost.getD 0
          let prompt_increment := d.prompt_tokens.getD 0
          let completion_increment := d.completion_tokens.getD 0
          let native_increment := d.native_total_tokens.getD 0
          let web_search_increment := d.web_search_count
          let stats1 := applyStatIncrements stats0 cost_increment prompt_increment
            completion_increment native_increment web_search_increment
          let st1 : ContextManagerState := { st with
            tracked_calls := tracked
            mission_stats := insertStr st.mission_stats mid stats1 }
          let agent_mode := d.agent_mode.getD "unknown"
          if cost_increment > 0 ∧ mid ≠ "" ∧ has_log_queue = true ∧
              has_update_callback = true ∧ d.agent_logged = false then
            match lookupStr nonAgentModes agent_mode with
            | some pr =>
                if agent_mode = "writing" ∧ mid = "" then
                  st1  -- dead `return`: "writing" is not in the allow-list
                else
                  let tokenSum := pyIntTrunc (prompt_increment + completion_increment)
                  copyStatsToMission (st1.log_execution_step mid pr.1 pr.2
                    (some ("Model: " ++ d.model_name.getD "unknown"))
                    (some ("Tokens: " ++ toString tokenSum))
                    .success Option.none Option.none Option.none (some d.toPy)
                    Option.none Option.none mkSer now new_log_id) mid stats1 now
            | Option.none => copyStatsToMission st1 mid stats1 now
          else copyStatsToMission st1 mid stats1 now
  | _, _ => st

end ContextManagerState

/-! ## Specification-side definitions

These are written from the specification's words, to be compared with the embedded
operations. -/

/-- Spec predicate: phase `p` has non-empty checkpoint data and is not completed. -/
def specInProgress (m : MissionContext) (p : String) : Bool :=
  (match lookupStr m.phase_checkpoint p with
   | some v => pyTruthy v
   | Option.none => false) && decide (p ∉ m.completed_phases)

/-- Spec reading of `next_phase`: the earliest in-order phase with non-empty checkpoint
data that is not completed; else the first phase absent from `completed_phases`; else the
terminal marker `"completed"`. -/
def specNextPhase (m : MissionContext) : String :=
  match phase_order.find? (specInProgress m) with
  | some p => p
  | Option.none =>
      match phase_order.find? (fun p => decide (p ∉ m.completed_phases)) with
      | some p => p
      | Option.none => "completed"

/-- Spec shorthand: the stat increments one `model_details` payload contributes. -/
def statIncrementsOf (d : ModelDetails) (s : MissionStats) : MissionStats :=
  applyStatIncrements s (d.cost.getD 0) (d.prompt_tokens.getD 0) (d.completion_tokens.getD 0)
    (d.native_total_tokens.getD 0) d.web_search_count

/-- A `model_details` payload that carries no usage at all (the early-return guard of
`update_mission_stats`). -/
def emptyPayload (d : ModelDetails) : Prop :=
  d.cost = Option.none ∧ d.prompt_tokens = Option.none ∧ d.completion_tokens = Option.none ∧
    d.native_total_tokens = Option.none ∧ d.web_search_count = 0

/-- Consistency invariant of the reference allocator maps: the forward map is inverted by
the reverse map, and every short id in use is some `"ref" ++ k` with `1 ≤ k ≤ counter`. -/
def RefInv (m : MissionContext) : Prop :=
  (∀ x s, lookupStr m.reference_id_map x = some s →
      lookupStr m.reverse_reference_map s = some x) ∧
  (∀ s y, lookupStr m.reverse_reference_map s = some y →
      ∃ k, 1 ≤ k ∧ k ≤ m.reference_counter ∧ s = "ref" ++ Nat.repr k)

/-- A sequence of `mark_phase_completed` calls (phase and clock value per call). -/
def markPhaseSeq (mid : String) (calls : List (String × ℚ)) (st : ContextManagerState) :
    ContextManagerState :=
  calls.foldl (fun s pt => s.mark_phase_completed mid pt.1 pt.2) st

/-! ## Example states for concrete instances -/

/-- A minimal mission record used by the concrete instances below. -/
def exampleMission : MissionContext :=
  { mission_id := "m1", user_request := "r", created_at := 0, updated_at := 0 }

/-- Mission of the C1 example: analysis and research completed, a non-empty
checkpoint saved for the outline phase. -/
def exampleMissionC1 : MissionContext :=
  { exampleMission with
    completed_phases := ["initial_analysis", "initial_research"]
    phase_checkpoint := [("outline_generation", .dict [("x", .num 1)])] }

/-- Manager state holding the C1 example mission. -/
def exampleStateC1 : ContextManagerState := { missions := [("m1", exampleMissionC1)] }

/-- Manager state with a running mission and a live semaphore of capacity 5. -/
def exampleStateC7 : ContextManagerState :=
  { missions := [("m1", { exampleMission with status := .running })]
    mission_semaphores := [("m1", 5)] }

/-- Manager state holding one paused mission. -/
def exampleStateC10 : ContextManagerState :=
  { missions := [("m1", { exampleMission with status := .paused })] }

/-- Manager state with one mission that already completed the analysis phase. -/
def exampleStateC5 : ContextManagerState :=
  { missions := [("m1", { exampleMission with completed_phases := ["initial_analysis"] })] }

/-- Manager state with one fresh mission (empty phase checkpoint). -/
def exampleStateC4 : ContextManagerState := { missions := [("m1", exampleMission)] }

/-- First stats payload of the C3 example: prompt 10, completion 5. -/
def examplePayload1 : ModelDetails :=
  { call_id := some "call-1", prompt_tokens := some 10, completion_tokens := some 5 }

/-- Second stats payload of the C3 example: prompt 20, completion 0. -/
def examplePayload2 : ModelDetails :=
  { call_id := some "call-2", prompt_tokens := some 20, completion_tokens := some 0 }

/-! ## Supporting lemmas -/

theorem lookupStr_insertStr_self {α : Type} (l : List (String × α)) (k : String) (v : α) :
    lookupStr (insertStr l k v) k = some v := by
  induction l with
  | nil => simp [insertStr, lookupStr]
  | cons hd tl ih =>
      obtain ⟨k', v'⟩ := hd
      by_cases h : k' = k
      · simp [insertStr, lookupStr, h]
      · simp [insertStr, lookupStr, h, ih]

theorem lookupStr_insertStr_ne {α : Type} (l : List (String × α)) (k k' : String) (v : α)
    (h : k' ≠ k) : lookupStr (insertStr l k v) k' = lookupStr l k' := by
  have hne : ¬k = k' := fun hh => h hh.symm
  induction l with
  | nil => simp [insertStr, lookupStr, hne]
  | cons hd tl ih =>
      obtain ⟨k₀, v₀⟩ := hd
      by_cases h₀ : k₀ = k
      · subst h₀
        simp [insertStr, lookupStr, hne]
      · by_cases h₁ : k₀ = k'
        · simp [insertStr, lookupStr, h₀, h₁, h]
        · simp [insertStr, lookupStr, h₀, h₁, ih]

theorem lookupStr_eq_none_of_not_mem_keys {α : Type} (l : List (String × α)) (k : String)
    (h : k ∉ l.map Prod.fst) : lookupStr l k = Option.none := by
  induction l with
  | nil => rfl
  | cons hd tl ih =>
      obtain ⟨k', v'⟩ := hd
      simp only [List.map_cons, List.mem_cons] at h
      push_neg at h
      have hne : ¬k' = k := fun hh => h.1 hh.symm
      simp [lookupStr, hne, ih h.2]

theorem sanitizeEntries_eq_map (entries : List (String × PyVal)) :
    sanitize_for_jsonb.sanitizeEntries entries =
      entries.map (fun kv => (kv.1, sanitize_for_jsonb kv.2)) := by
  induction entries with
  | nil => rfl
  | cons hd tl ih =>
      obtain ⟨k, v⟩ := hd
      simp [sanitize_for_jsonb.sanitizeEntries, ih]

theorem sanitizeItems_eq_map (items : List PyVal) :
    sanitize_for_jsonb.sanitizeItems items = items.map sanitize_for_jsonb := by
  induction items with
  | nil => rfl
  | cons hd tl ih => simp [sanitize_for_jsonb.sanitizeItems, ih]

theorem digitVal_digitChar (d : Nat) (h : d < 10) : digitVal (Nat.digitChar d) = d := by
  interval_cases d <;> rfl

theorem toDigitsCore_append (f : Nat) :
    ∀ (n : Nat) (acc : List Char),
      Nat.toDigitsCore 10 f n acc = Nat.toDigitsCore 10 f n [] ++ acc := by
  induction f with
  | zero => intro n acc; simp [Nat.toDigitsCore]
  | succ f ih =>
      intro n acc
      simp only [Nat.toDigitsCore]
      by_cases h : n / 10 = 0
      · simp [h]
      · simp only [h, if_false]
        rw [ih (n / 10) (Nat.digitChar (n % 10) :: acc),
            ih (n / 10) [Nat.digitChar (n % 10)]]
        simp

theorem decDigits_toDigitsCore (f : Nat) :
    ∀ n : Nat, n < f → decDigits (Nat.toDigitsCore 10 f n []) = n := by
  induction f with
  | zero => intro n h; omega
  | succ f ih =>
      intro n h
      simp only [Nat.toDigitsCore]
      by_cases h10 : n / 10 = 0
      · have hn : n < 10 := by omega
        simp only [h10, if_true]
        have hmodn : n % 10 = n := Nat.mod_eq_of_lt hn
        simp [decDigits, hmodn, digitVal_digitChar n hn]
      · have hpos : 0 < n := by
          rcases Nat.eq_zero_or_pos n with h0 | h0
          · exact absurd (by simp [h0]) h10
          · exact h0
        have hlt : n / 10 < f := by
          have := Nat.div_lt_self hpos (by omega : 1 < 10)
          omega
        simp only [h10, if_false]
        rw [toDigitsCore_append f (n / 10) [Nat.digitChar (n % 10)]]
        have hmod : digitVal (Nat.digitChar (n % 10)) = n % 10 :=
          digitVal_digitChar (n % 10) (Nat.mod_lt n (by omega))
        simp only [decDigits, List.foldl_append, List.foldl_cons, List.foldl_nil]
        have := ih (n / 10) hlt
        simp only [decDigits] at this
        rw [this, hmod]
        omega

theorem natRepr_injective : Function.Injective Nat.repr := by
  intro m n h
  have hdig : Nat.toDigits 10 m = Nat.toDigits 10 n := by
    have := congrArg String.data h
    simpa [Nat.repr, List.asString] using this
  have hm := decDigits_toDigitsCore (m + 1) m (Nat.lt_succ_self m)
  have hn := decDigits_toDigitsCore (n + 1) n (Nat.lt_succ_self n)
  simp only [Nat.toDigits] at hdig
  rw [hdig] at hm
  rw [hm] at hn
  exact hn

theorem refId_injective (a b : Nat) (h : "ref" ++ Nat.repr a = "ref" ++ Nat.repr b) :
    a = b := by
  apply natRepr_injective
  have hd := congrArg String.data h
  simp only [String.data_append] at hd
  have : (Nat.repr a).data = (Nat.repr b).data := List.append_cancel_left hd
  cases ha : Nat.repr a with
  | mk da =>
    cases hb : Nat.repr b with
    | mk db =>
      rw [ha, hb] at this
      simp at this
      rw [this]

theorem mark_phase_completed_nodup_preserved (st : ContextManagerState) (mid phase : String)
    (now : ℚ)
    (hall : ∀ id m, lookupStr st.missions id = some m → m.completed_phases.Nodup) :
    ∀ id m, lookupStr (st.mark_phase_completed mid phase now).missions id = some m →
      m.completed_phases.Nodup := by
  intro id m hm
  unfold ContextManagerState.mark_phase_completed at hm
  cases h0 : lookupStr st.missions mid with
  | none => rw [h0] at hm; exact hall id m hm
  | some m0 =>
      rw [h0] at hm
      dsimp only at hm
      by_cases hp : phase ∈ m0.completed_phases
      · rw [if_pos hp] at hm; exact hall id m hm
      · rw [if_neg hp] at hm
        by_cases hid : id = mid
        · subst hid
          rw [lookupStr_insertStr_self] at hm
          cases hm
          simp only [List.nodup_append, List.nodup_singleton, true_and]
          exact ⟨hall id m0 h0, by simpa using hp⟩
        · rw [lookupStr_insertStr_ne _ _ _ _ hid] at hm
          exact hall id m hm

theorem markPhaseSeq_nodup (mid : String) (calls : List (String × ℚ)) :
    ∀ st : ContextManagerState,
      (∀ id m, lookupStr st.missions id = some m → m.completed_phases.Nodup) →
      ∀ id m, lookupStr (markPhaseSeq mid calls st).missions id = some m →
        m.completed_phases.Nodup := by
  induction calls with
  | nil => intro st hall; exact hall
  | cons c rest ih =>
      intro st hall
      simp only [markPhaseSeq, List.foldl_cons]
      exact ih _ (mark_phase_completed_nodup_preserved st mid c.1 c.2 hall)

theorem lookupStr_removeStr_self {α : Type} (l : List (String × α)) (k : String) :
    lookupStr (removeStr l k) k = Option.none := by
  induction l with
  | nil => rfl
  | cons hd tl ih =>
      obtain ⟨k', v⟩ := hd
      by_cases h : k' = k
      · simp [removeStr, h, ih]
      · simp [removeStr, lookupStr, h, ih]

theorem removeStr_insertStr {α : Type} (l : List (String × α)) (k : String) (v : α) :
    removeStr (insertStr l k v) k = removeStr l k := by
  induction l with
  | nil => simp [insertStr, removeStr]
  | cons hd tl ih =>
      obtain ⟨k', v'⟩ := hd
      by_cases h : k' = k
      · simp [insertStr, removeStr, h]
      · simp [insertStr, removeStr, h, ih]

theorem removeStr_eq_of_lookup_none {α : Type} (l : List (String × α)) (k : String)
    (h : lookupStr l k = Option.none) : removeStr l k = l := by
  induction l with
  | nil => rfl
  | cons hd tl ih =>
      obtain ⟨k', v⟩ := hd
      by_cases hk : k' = k
      · simp [lookupStr, hk] at h
      · simp only [lookupStr, hk, if_false] at h
        simp [removeStr, hk, ih h]

theorem lookupStr_append {α : Type} (l1 l2 : List (String × α)) (k : String) :
    lookupStr (l1 ++ l2) k =
      match lookupStr l1 k with
      | some v => some v
      | Option.none => lookupStr l2 k := by
  induction l1 with
  | nil => rfl
  | cons hd tl ih =>
      obtain ⟨k', v⟩ := hd
      by_cases h : k' = k
      · simp [lookupStr, h]
      · simp [lookupStr, h, ih]

theorem insertStr_append_of_lookup_none {α : Type} (l : List (String × α)) (k : String)
    (v : α) (h : lookupStr l k = Option.none) : insertStr l k v = l ++ [(k, v)] := by
  induction l with
  | nil => rfl
  | cons hd tl ih =>
      obtain ⟨k', v'⟩ := hd
      by_cases hk : k' = k
      · simp [lookupStr, hk] at h
      · simp only [lookupStr, hk, if_false] at h
        simp [insertStr, hk, ih h]

theorem dictUpdate_append (d : List (String × PyVal)) :
    ∀ acc : List (String × PyVal), (d.map Prod.fst).Nodup →
      (∀ k ∈ d.map Prod.fst, lookupStr acc k = Option.none) →
      ContextManagerState.dictUpdate acc d = acc ++ d := by
  induction d with
  | nil => intro acc _ _; simp [ContextManagerState.dictUpdate]
  | cons hd tl ih =>
      obtain ⟨k, v⟩ := hd
      intro acc hnodup hfresh
      simp only [List.map_cons, List.nodup_cons] at hnodup
      simp only [ContextManagerState.dictUpdate, List.foldl_cons]
      rw [insertStr_append_of_lookup_none acc k v (hfresh k (by simp))]
      have hfresh2 : ∀ k' ∈ tl.map Prod.fst,
          lookupStr (acc ++ [(k, v)]) k' = Option.none := by
        intro k' hk'
        rw [lookupStr_append, hfresh k' (by simp [hk'])]
        have hne : ¬k = k' := fun h => hnodup.1 (h ▸ hk')
        simp [lookupStr, hne]
      have h2 := ih (acc ++ [(k, v)]) hnodup.2 hfresh2
      simp only [ContextManagerState.dictUpdate] at h2
      rw [h2, List.append_assoc]
      rfl

theorem dictUpdate_nil (d : List (String × PyVal)) (hd : (d.map Prod.fst).Nodup) :
    ContextManagerState.dictUpdate [] d = d := by
  simpa using dictUpdate_append d [] hd (fun k _ => rfl)

theorem lookupStr_dictUpdate (d1 d2 : List (String × PyVal))
    (hd2 : (d2.map Prod.fst).Nodup) (k : String) :
    lookupStr (ContextManagerState.dictUpdate d1 d2) k =
      match lookupStr d2 k with
      | some v => some v
      | Option.none => lookupStr d1 k := by
  induction d2 generalizing d1 with
  | nil => rfl
  | cons hd tl ih =>
      obtain ⟨k2, v2⟩ := hd
      simp only [List.map_cons, List.nodup_cons] at hd2
      simp only [ContextManagerState.dictUpdate, List.foldl_cons]
      have htl := ih (insertStr d1 k2 v2) hd2.2
      simp only [ContextManagerState.dictUpdate] at htl
      rw [htl]
      by_cases hk : k = k2
      · subst hk
        have hnone : lookupStr tl k = Option.none :=
          lookupStr_eq_none_of_not_mem_keys tl k hd2.1
        rw [hnone, lookupStr_insertStr_self]
        simp [lookupStr]
      · have hne : ¬k2 = k := fun h => hk h.symm
        have hcons : lookupStr ((k2, v2) :: tl) k = lookupStr tl k := by
          simp [lookupStr, hne]
        rw [hcons]
        cases hlk : lookupStr tl k with
        | some v => rfl
        | none =>
            rw [lookupStr_insertStr_ne _ _ _ _ hk]

theorem get_simple_reference_id_cached (m : MissionContext) (x s : String)
    (hx : lookupStr m.reference_id_map x = some s) :
    m.get_simple_reference_id x = (s, m) := by
  unfold MissionContext.get_simple_reference_id
  rw [hx]

theorem get_simple_reference_id_fresh (m : MissionContext) (x : String)
    (hx : lookupStr m.reference_id_map x = Option.none) :
    m.get_simple_reference_id x = ("ref" ++ Nat.repr (m.reference_counter + 1),
      { m with
        reference_counter := m.reference_counter + 1
        reference_id_map :=
          insertStr m.reference_id_map x ("ref" ++ Nat.repr (m.reference_counter + 1))
        reverse_reference_map :=
          insertStr m.reverse_reference_map ("ref" ++ Nat.repr (m.reference_counter + 1)) x }) := by
  unfold MissionContext.get_simple_reference_id
  rw [hx]

theorem removedChar_iff (c : Char) :
    removedChar c = true ↔
      (c.toNat ≤ 0x1F ∧ c.toNat ≠ 0x09 ∧ c.toNat ≠ 0x0A ∧ c.toNat ≠ 0x0D) := by
  simp only [removedChar, Bool.or_eq_true, Bool.and_eq_true, decide_eq_true_eq,
    beq_iff_eq]
  omega

theorem findInProgressPhase_eq_find (m : MissionContext) :
    ∀ l : List String, findInProgressPhase m l = l.find? (specInProgress m) := by
  intro l
  induction l with
  | nil => rfl
  | cons p rest ih =>
      simp only [findInProgressPhase]
      cases hl : lookupStr m.phase_checkpoint p with
      | none =>
          have hp : ¬specInProgress m p = true := by simp [specInProgress, hl]
          rw [List.find?_cons_of_neg _ hp]
          exact ih
      | some v =>
          dsimp only
          by_cases ht : p ∉ m.completed_phases ∧ pyTruthy v = true
          · have hp : specInProgress m p = true := by
              simp [specInProgress, hl, ht.1, ht.2]
            rw [if_pos ht, List.find?_cons_of_pos _ hp]
          · have hp : ¬specInProgress m p = true := by
              simp only [specInProgress, hl, Bool.and_eq_true, decide_eq_true_eq]
              intro hcontra
              exact ht ⟨hcontra.2, hcontra.1⟩
            rw [if_neg ht, List.find?_cons_of_neg _ hp]
            exact ih

theorem nextUncompletedPhase_eq_find (m : MissionContext) :
    ∀ l : List String, nextUncompletedPhase m l
      = (l.find? (fun p => decide (p ∉ m.completed_phases))).getD "completed" := by
  intro l
  induction l with
  | nil => rfl
  | cons p rest ih =>
      simp only [nextUncompletedPhase]
      by_cases hp : p ∈ m.completed_phases
      · rw [if_pos hp, List.find?_cons_of_neg _ (by simpa using hp)]
        exact ih
      · rw [if_neg hp, List.find?_cons_of_pos _ (by simpa using hp)]
        rfl

theorem checkpointPhaseStr_resume (st : ContextManagerState) (mid : String) :
    checkpointPhaseStr (st.get_resume_checkpoint mid) = Option.none := by
  have key : lookupStr (st.get_resume_checkpoint mid) "phase" = Option.none := by
    unfold ContextManagerState.get_resume_checkpoint
    cases hm : lookupStr st.missions mid with
    | none => rfl
    | some m =>
        dsimp only
        cases hl : m.execution_log.getLast? with
        | none =>
            dsimp only
            by_cases hsr : m.execution_phase = "structured_research" ∧ m.plan.isSome = true
            · rw [if_pos hsr, lookupStr_insertStr_ne _ _ _ _ (by decide)]
              simp [lookupStr]
            · rw [if_neg hsr]
              simp [lookupStr]
        | some lastLog =>
            dsimp only
            by_cases hsr : m.execution_phase = "structured_research" ∧ m.plan.isSome = true
            · rw [if_pos hsr, lookupStr_insertStr_ne _ _ _ _ (by decide),
                  lookupStr_insertStr_ne _ _ _ _ (by decide)]
              simp [lookupStr]
            · rw [if_neg hsr, lookupStr_insertStr_ne _ _ _ _ (by decide)]
              simp [lookupStr]
  simp [checkpointPhaseStr, key]

theorem addTracked_mem (l : List String) (c : String) : c ∈ addTracked l c := by
  unfold addTracked
  by_cases h : c ∈ l
  · rw [if_pos h]; exact h
  · rw [if_neg h]; exact List.mem_cons_self c l

theorem addTracked_eq_cons (l : List String) (c : String) (h : c ∉ l) :
    addTracked l c = c :: l := by
  simp [addTracked, h]

theorem log_execution_step_tracked (st : ContextManagerState)
    (mission_id agent_name action : String) (is os : Option String) (stat : LogStatus)
    (em : Option String) (fi fo md tc : Option PyVal) (fint : Option (List String))
    (mkSer : PyVal → PyVal) (now : ℚ) (lid : String) :
    (st.log_execution_step mission_id agent_name action is os stat em fi fo md tc fint
        mkSer now lid).tracked_calls = st.tracked_calls := by
  unfold ContextManagerState.log_execution_step
  cases lookupStr st.missions mission_id with
  | none => rfl
  | some m =>
      dsimp only
      by_cases h : (m.status = .paused ∨ m.status = .stopped) ∧ action ∉ allowedWhenHalted
      · rw [if_pos h]
      · rw [if_neg h]

theorem log_execution_step_stats (st : ContextManagerState)
    (mission_id agent_name action : String) (is os : Option String) (stat : LogStatus)
    (em : Option String) (fi fo md tc : Option PyVal) (fint : Option (List String))
    (mkSer : PyVal → PyVal) (now : ℚ) (lid : String) :
    (st.log_execution_step mission_id agent_name action is os stat em fi fo md tc fint
        mkSer now lid).mission_stats = st.mission_stats := by
  unfold ContextManagerState.log_execution_step
  cases lookupStr st.missions mission_id with
  | none => rfl
  | some m =>
      dsimp only
      by_cases h : (m.status = .paused ∨ m.status = .stopped) ∧ action ∉ allowedWhenHalted
      · rw [if_pos h]
      · rw [if_neg h]

theorem copyStatsToMission_tracked (st : ContextManagerState) (mid : String)
    (stats1 : MissionStats) (now : ℚ) :
    (ContextManagerState.copyStatsToMission st mid stats1 now).tracked_calls
        = st.tracked_calls := by
  unfold ContextManagerState.copyStatsToMission
  cases lookupStr st.missions mid with
  | none => rfl
  | some m => rfl

theorem copyStatsToMission_stats (st : ContextManagerState) (mid : String)
    (stats1 : MissionStats) (now : ℚ) :
    (ContextManagerState.copyStatsToMission st mid stats1 now).mission_stats
        = st.mission_stats := by
  unfold ContextManagerState.copyStatsToMission
  cases lookupStr st.missions mid with
  | none => rfl
  | some m => rfl

theorem update_mission_stats_tracked_noop (st : ContextManagerState) (mid : String)
    (d : ModelDetails) (c : String) (hq hb : Bool) (mkSer : PyVal → PyVal) (now : ℚ)
    (lid : String)
    (hmid : mid ≠ "") (hc : d.call_id = some c) (hcne : c ≠ "")
    (htr : c ∈ st.tracked_calls) :
    st.update_mission_stats (some mid) (some d) hq hb false mkSer now lid = st := by
  unfold ContextManagerState.update_mission_stats
  dsimp only
  rw [if_neg hmid]
  have hdec : pyStrTruthy (some c) = true := by simp [pyStrTruthy, hcne]
  have hmem : decide (c ∈ st.tracked_calls) = true := by simp [htr]
  simp only [hc, hdec, Bool.not_true, Bool.false_and, Bool.false_eq_true, if_false,
    Bool.not_false, Bool.true_and, hmem, eq_self_iff_true, if_true]

theorem update_stats_fresh_components (st : ContextManagerState) (mid : String)
    (d : ModelDetails) (c : String) (hq hb : Bool) (mkSer : PyVal → PyVal) (now : ℚ)
    (lid : String)
    (hmid : mid ≠ "") (hc : d.call_id = some c) (hcne : c ≠ "")
    (htr : c ∉ st.tracked_calls)
    (hpay : ¬(d.cost = Option.none ∧ d.prompt_tokens = Option.none ∧
        d.completion_tokens = Option.none ∧ d.native_total_tokens = Option.none ∧
        d.web_search_count = 0)) :
    (st.update_mission_stats (some mid) (some d) hq hb false mkSer now lid).mission_stats
        = insertStr st.mission_stats mid
            (statIncrementsOf d ((lookupStr st.mission_stats mid).getD {})) ∧
    (st.update_mission_stats (some mid) (some d) hq hb false mkSer now lid).tracked_calls
        = addTracked st.tracked_calls c := by
  unfold ContextManagerState.update_mission_stats
  dsimp only
  rw [if_neg hmid]
  have hdec : pyStrTruthy (some c) = true := by simp [pyStrTruthy, hcne]
  have hmem : decide (c ∈ st.tracked_calls) = false := by simp [htr]
  simp only [hc, hdec, Bool.not_true, Bool.false_and, Bool.false_eq_true, if_false,
    Bool.not_false, Bool.true_and, hmem, if_neg hpay, if_neg hcne]
  constructor
  · split
    · split
      · split
        · rfl
        · simp only [copyStatsToMission_stats, log_execution_step_stats]
          rfl
      · simp only [copyStatsToMission_stats]
        rfl
    · simp only [copyStatsToMission_stats]
      rfl
  · split
    · split
      · split
        · rfl
        · simp only [copyStatsToMission_tracked, log_execution_step_tracked]
      · simp only [copyStatsToMission_tracked]
    · simp only [copyStatsToMission_tracked]

theorem update_stats_force_components (st : ContextManagerState) (mid : String)
    (d : ModelDetails) (hq hb : Bool) (mkSer : PyVal → PyVal) (now : ℚ) (lid : String)
    (hmid : mid ≠ "")
    (hpay : ¬(d.cost = Option.none ∧ d.prompt_tokens = Option.none ∧
        d.completion_tokens = Option.none ∧ d.native_total_tokens = Option.none ∧
        d.web_search_count = 0)) :
    (st.update_mission_stats (some mid) (some d) hq hb true mkSer now lid).mission_stats
        = insertStr st.mission_stats mid
            (statIncrementsOf d ((lookupStr st.mission_stats mid).getD {})) := by
  unfold ContextManagerState.update_mission_stats
  dsimp only
  rw [if_neg hmid]
  simp only [Bool.not_true, Bool.and_false, Bool.false_and, Bool.false_eq_true, if_false,
    if_neg hpay]
  split
  · split
    · split
      · rfl
      · simp only [copyStatsToMission_stats, log_execution_step_stats]
        rfl
    · simp only [copyStatsToMission_stats]
      rfl
  · simp only [copyStatsToMission_stats]
    rfl

/-! ## Claim theorems -/

/-- C1: for every existing mission, `get_next_phase` returns the earliest phase of the
fixed order with non-empty checkpoint data that is not completed; when no such phase
exists, the first phase of the order absent from `completed_phases`; when every phase is
completed, the terminal marker `"completed"` (the `specNextPhase` reading of the spec). -/
theorem get_next_phase_spec (st : ContextManagerState) (mid : String) (m : MissionContext)
    (hm : lookupStr st.missions mid = some m) :
    st.get_next_phase mid = some (specNextPhase m) := by
  unfold ContextManagerState.get_next_phase
  rw [hm]
  dsimp only
  rw [findInProgressPhase_eq_find]
  unfold specNextPhase
  cases hf : phase_order.find? (specInProgress m) with
  | some p => rfl
  | none =>
      dsimp only
      rw [checkpointPhaseStr_resume st mid]
      rw [ite_self]
      dsimp only
      rw [nextUncompletedPhase_eq_find]
      cases hg : phase_order.find? (fun p => decide (p ∉ m.completed_phases)) with
      | some p => rfl
      | none => rfl

/-- Witness for C1: with analysis and research completed and a non-empty checkpoint for
the outline phase, the next phase is the outline phase, not structured research. -/
theorem get_next_phase_spec_witness :
    ContextManagerState.get_next_phase exampleStateC1 "m1" = some "outline_generation" ∧
    "outline_generation" ≠ "structured_research" := by
  constructor
  · rw [get_next_phase_spec exampleStateC1 "m1" exampleMissionC1 rfl]
    rfl
  · decide

/-- C9 counterexample: `sanitize_for_jsonb` leaves `U+007F` (DEL) in place, although it
is a control character (Unicode category Cc spans `00–1F` and `7F–9F`) different from
tab, newline and carriage return — so the output is not free of control characters other
than those three. -/
theorem sanitize_for_jsonb_keeps_del_control :
    sanitize_for_jsonb (PyVal.str "\x7f") = PyVal.str "\x7f" ∧
    (0x7F ≤ '\x7f'.toNat ∧ '\x7f'.toNat ≤ 0x9F) ∧
    '\x7f'.toNat ≠ 0x09 ∧ '\x7f'.toNat ≠ 0x0A ∧ '\x7f'.toNat ≠ 0x0D :=
  ⟨rfl, by decide, by decide, by decide, by decide⟩

/-- C9 (amended): for every string, `sanitize_for_jsonb` returns a string with no
character from the C0 control range `0x00`–`0x1F` other than tab, newline and carriage
return (characters outside that range, including `DEL` and the C1 controls, pass
through); the output is a subsequence of the input, and every input character that is
not one of the removed C0 controls is kept.  For dicts it scrubs the values recursively
(keys are left as-is), for lists and tuples every item recursively, and every other
value is returned unchanged. -/
theorem sanitize_for_jsonb_spec :
    (∀ s : String, ∀ c ∈ (sanitizeString s).data,
        ¬(c.toNat ≤ 0x1F ∧ c.toNat ≠ 0x09 ∧ c.toNat ≠ 0x0A ∧ c.toNat ≠ 0x0D)) ∧
    (∀ s : String, (sanitizeString s).data.Sublist s.data) ∧
    (∀ s : String, ∀ c ∈ s.data,
        (c.toNat ≤ 0x1F ∧ c.toNat ≠ 0x09 ∧ c.toNat ≠ 0x0A ∧ c.toNat ≠ 0x0D) ∨
          c ∈ (sanitizeString s).data) ∧
    (∀ entries, sanitize_for_jsonb (.dict entries)
        = .dict (entries.map (fun kv => (kv.1, sanitize_for_jsonb kv.2)))) ∧
    (∀ items, sanitize_for_jsonb (.list items) = .list (items.map sanitize_for_jsonb)) ∧
    (∀ items, sanitize_for_jsonb (.tuple items) = .tuple (items.map sanitize_for_jsonb)) ∧
    (∀ q, sanitize_for_jsonb (.num q) = .num q) ∧
    (∀ b, sanitize_for_jsonb (.bool b) = .bool b) ∧
    (sanitize_for_jsonb .pyNone = .pyNone) := by
  refine ⟨?_, ?_, ?_, ?_, ?_, ?_, fun _ => rfl, fun _ => rfl, rfl⟩
  · intro s c hc hbad
    simp only [sanitizeString, List.mem_filter, Bool.not_eq_eq_eq_not, Bool.not_true] at hc
    rw [← removedChar_iff] at hbad
    rw [hc.2] at hbad
    cases hbad
  · intro s
    exact List.filter_sublist _
  · intro s c hc
    by_cases hr : removedChar c = true
    · exact Or.inl ((removedChar_iff c).mp hr)
    · refine Or.inr ?_
      simp only [sanitizeString, List.mem_filter]
      exact ⟨hc, by simp [hr]⟩
  · intro entries
    simp [sanitize_for_jsonb, sanitizeEntries_eq_map]
  · intro items
    simp [sanitize_for_jsonb, sanitizeItems_eq_map]
  · intro items
    simp [sanitize_for_jsonb, sanitizeItems_eq_map]

/-- Witness for C9 (amended): the kept characters of `"a\x00b"` are classified by the
theorem at the concrete character `'a'`. -/
theorem sanitize_for_jsonb_spec_witness :
    ('a'.toNat ≤ 0x1F ∧ 'a'.toNat ≠ 0x09 ∧ 'a'.toNat ≠ 0x0A ∧ 'a'.toNat ≠ 0x0D) ∨
      'a' ∈ (sanitizeString "a\x00b").data :=
  sanitize_for_jsonb_spec.2.2.1 "a\x00b" 'a' (by decide)

/-- C2: with `force_update=False`, replaying an already-applied call id is a silent no-op
(the whole manager state is unchanged); a first, untracked call id applies its increments
exactly once; a second call with a different fresh call id applies its increments again;
and a second call with the same call id but `force_update=True` also applies again. -/
theorem update_mission_stats_dedup (st : ContextManagerState) (mid : String)
    (d d' : ModelDetails) (c c' : String) (hq hb : Bool) (mkSer : PyVal → PyVal)
    (now now' now'' : ℚ) (lid lid' lid'' : String)
    (hmid : mid ≠ "")
    (hc : d.call_id = some c) (hcne : c ≠ "") (htr : c ∉ st.tracked_calls)
    (hpay : ¬emptyPayload d)
    (hc' : d'.call_id = some c') (hc'ne : c' ≠ "") (htr' : c' ∉ st.tracked_calls)
    (hcc' : c' ≠ c) (hpay' : ¬emptyPayload d') :
    ((st.update_mission_stats (some mid) (some d) hq hb false mkSer now
        lid).update_mission_stats (some mid) (some d) hq hb false mkSer now' lid'
      = st.update_mission_stats (some mid) (some d) hq hb false mkSer now lid) ∧
    (lookupStr (st.update_mission_stats (some mid) (some d) hq hb false mkSer now
          lid).mission_stats mid
      = some (statIncrementsOf d ((lookupStr st.mission_stats mid).getD {}))) ∧
    (lookupStr ((st.update_mission_stats (some mid) (some d) hq hb false mkSer now
          lid).update_mission_stats (some mid) (some d') hq hb false mkSer now'
          lid').mission_stats mid
      = some (statIncrementsOf d'
          (statIncrementsOf d ((lookupStr st.mission_stats mid).getD {})))) ∧
    (lookupStr ((st.update_mission_stats (some mid) (some d) hq hb false mkSer now
          lid).update_mission_stats (some mid) (some d) hq hb true mkSer now''
          lid'').mission_stats mid
      = some (statIncrementsOf d
          (statIncrementsOf d ((lookupStr st.mission_stats mid).getD {})))) := by
  have hpay0 : ¬(d.cost = Option.none ∧ d.prompt_tokens = Option.none ∧
      d.completion_tokens = Option.none ∧ d.native_total_tokens = Option.none ∧
      d.web_search_count = 0) := hpay
  have hpay0' : ¬(d'.cost = Option.none ∧ d'.prompt_tokens = Option.none ∧
      d'.completion_tokens = Option.none ∧ d'.native_total_tokens = Option.none ∧
      d'.web_search_count = 0) := hpay'
  have comp := update_stats_fresh_components st mid d c hq hb mkSer now lid hmid hc hcne
    htr hpay0
  refine ⟨?_, ?_, ?_, ?_⟩
  · apply update_mission_stats_tracked_noop _ mid d c hq hb mkSer now' lid' hmid hc hcne
    rw [comp.2]
    exact addTracked_mem _ _
  · rw [comp.1]
    exact lookupStr_insertStr_self _ _ _
  · have htr1 : c' ∉ (st.update_mission_stats (some mid) (some d) hq hb false mkSer now
        lid).tracked_calls := by
      rw [comp.2, addTracked_eq_cons _ _ htr]
      simp [hcc', htr']
    have comp' := update_stats_fresh_components
      (st.update_mission_stats (some mid) (some d) hq hb false mkSer now lid)
      mid d' c' hq hb mkSer now' lid' hmid hc' hc'ne htr1 hpay0'
    rw [comp'.1, lookupStr_insertStr_self, comp.1, lookupStr_insertStr_self]
    rfl
  · have hforce := update_stats_force_components
      (st.update_mission_stats (some mid) (some d) hq hb false mkSer now lid)
      mid d hq hb mkSer now'' lid'' hmid hpay0
    rw [hforce, lookupStr_insertStr_self, comp.1, lookupStr_insertStr_self]
    rfl

/-- Witness for C2: two concrete calls with call id `"call-1"` on the empty manager —
the replay is a no-op and the stats were applied once. -/
theorem update_mission_stats_dedup_witness :
    ((ContextManagerState.update_mission_stats
        (ContextManagerState.update_mission_stats {} (some "m1") (some examplePayload1)
          false false false id 0 "L1")
        (some "m1") (some examplePayload1) false false false id 1 "L2")
      = ContextManagerState.update_mission_stats {} (some "m1") (some examplePayload1)
          false false false id 0 "L1") ∧
    (lookupStr (ContextManagerState.update_mission_stats {} (some "m1")
        (some examplePayload1) false false false id 0 "L1").mission_stats "m1"
      = some (statIncrementsOf examplePayload1
          ((lookupStr ({} : ContextManagerState).mission_stats "m1").getD {}))) := by
  have h := update_mission_stats_dedup {} "m1" examplePayload1 examplePayload2
    "call-1" "call-2" false false id 0 1 2 "L1" "L2" "L3" (by decide) rfl (by decide)
    (by simp) (by simp [emptyPayload, examplePayload1]) rfl (by decide) (by simp)
    (by decide) (by simp [emptyPayload, examplePayload2])
  exact ⟨h.1, h.2.1⟩

/-- C3: a combined-only usage report (positive native total, prompt and completion both
zero) accumulates into the running native counter; a granular report (nonzero prompt or
completion, both non-negative) redefines the running native counter as running prompt
plus running completion; concretely, two calls reporting `(prompt=10, completion=5)` and
then `(prompt=20, completion=0)` yield a native total of 35. -/
theorem native_token_accumulation :
    (∀ (s : MissionStats) (cost p comp n : ℚ) (w : Int), 0 ≤ n → p = 0 → comp = 0 →
        (applyStatIncrements s cost p comp n w).total_native_tokens
          = s.total_native_tokens + n) ∧
    (∀ (s : MissionStats) (cost p comp n : ℚ) (w : Int), 0 ≤ p → 0 ≤ comp →
        (p ≠ 0 ∨ comp ≠ 0) →
        (applyStatIncrements s cost p comp n w).total_native_tokens
          = (s.total_prompt_tokens + p) + (s.total_completion_tokens + comp)) ∧
    (lookupStr
        (ContextManagerState.update_mission_stats
          (ContextManagerState.update_mission_stats {} (some "m1") (some examplePayload1)
            false false false id 0 "L1")
          (some "m1") (some examplePayload2) false false false id 1 "L2").mission_stats
        "m1"
      = some { total_cost := 0, total_prompt_tokens := 30, total_completion_tokens := 5,
               total_native_tokens := 35, total_web_search_calls := 0 }) := by
  refine ⟨?_, ?_, ?_⟩
  · intro s cost p comp n w hn hp hcomp
    subst hp
    subst hcomp
    unfold applyStatIncrements
    by_cases hpos : n > 0
    · rw [if_pos ⟨hpos, rfl, rfl⟩]
    · have hn0 : n = 0 := le_antisymm (not_lt.mp hpos) hn
      subst hn0
      rw [if_neg (by simp)]
      rw [if_neg (by simp)]
      simp
  · intro s cost p comp n w hp hcomp hor
    have hpos : 0 < p ∨ 0 < comp := by
      rcases hor with h | h
      · exact Or.inl (lt_of_le_of_ne hp (Ne.symm h))
      · exact Or.inr (lt_of_le_of_ne hcomp (Ne.symm h))
    unfold applyStatIncrements
    have hcond : ¬(n > 0 ∧ p = 0 ∧ comp = 0) := by
      intro hcontra
      rcases hpos with h | h
      · rw [hcontra.2.1] at h; exact lt_irrefl 0 h
      · rw [hcontra.2.2] at h; exact lt_irrefl 0 h
    rw [if_neg hcond, if_pos hpos]
  · have comp1 := update_stats_fresh_components {} "m1" examplePayload1 "call-1"
      false false id 0 "L1" (by decide) rfl (by decide) (by simp)
      (by simp [examplePayload1])
    have htr1 : "call-2" ∉ (ContextManagerState.update_mission_stats {} (some "m1")
        (some examplePayload1) false false false id 0 "L1").tracked_calls := by
      rw [comp1.2]
      decide
    have comp2 := update_stats_fresh_components
      (ContextManagerState.update_mission_stats {} (some "m1") (some examplePayload1)
        false false false id 0 "L1")
      "m1" examplePayload2 "call-2" false false id 1 "L2" (by decide) rfl (by decide)
      htr1 (by simp [examplePayload2])
    rw [comp2.1, lookupStr_insertStr_self, comp1.1, lookupStr_insertStr_self]
    simp only [Option.getD_some]
    simp only [statIncrementsOf, applyStatIncrements, examplePayload1, examplePayload2,
      lookupStr, Option.getD]
    norm_num

/-- Witness for C3: the combined-only law instantiated at a fresh counter and a native
total of 35. -/
theorem native_token_accumulation_witness :
    (applyStatIncrements {} 0 0 0 35 0).total_native_tokens = 0 + 35 :=
  native_token_accumulation.1 {} 0 0 0 35 0 (by norm_num) rfl rfl

/-- C4: `save_phase_checkpoint` shallow-merges at depth 1 — starting from a phase with no
checkpoint entry, saving `d1` and then `d2` leaves the phase's checkpoint map equal to
`d1` updated with `d2`: top-level keys of `d2` overwrite, keys only in `d1` are
preserved. -/
theorem save_phase_checkpoint_shallow_merge (st : ContextManagerState)
    (mid phase : String) (m : MissionContext) (d1 d2 : List (String × PyVal))
    (now1 now2 : ℚ)
    (hm : lookupStr st.missions mid = some m)
    (h0 : lookupStr m.phase_checkpoint phase = Option.none)
    (hd1 : (d1.map Prod.fst).Nodup) (hd2 : (d2.map Prod.fst).Nodup) :
    ∃ st1 st2 m2,
      st.save_phase_checkpoint mid phase d1 now1 = some st1 ∧
      st1.save_phase_checkpoint mid phase d2 now2 = some st2 ∧
      lookupStr st2.missions mid = some m2 ∧
      lookupStr m2.phase_checkpoint phase
        = some (.dict (ContextManagerState.dictUpdate d1 d2)) ∧
      (∀ k, lookupStr (ContextManagerState.dictUpdate d1 d2) k =
        match lookupStr d2 k with
        | some v => some v
        | Option.none => lookupStr d1 k) := by
  have hup1 : ContextManagerState.dictUpdate [] d1 = d1 := dictUpdate_nil d1 hd1
  set m1 : MissionContext := { m with
      phase_checkpoint := insertStr (insertStr m.phase_checkpoint phase (.dict []))
        phase (.dict d1)
      updated_at := now1 } with hm1
  set st1 : ContextManagerState :=
    { st with missions := insertStr st.missions mid m1 } with hst1
  set m2 : MissionContext := { m1 with
      phase_checkpoint := insertStr m1.phase_checkpoint phase
        (.dict (ContextManagerState.dictUpdate d1 d2))
      updated_at := now2 } with hm2
  set st2 : ContextManagerState :=
    { st1 with missions := insertStr st1.missions mid m2 } with hst2
  have hm1lookup : lookupStr st1.missions mid = some m1 := by
    rw [hst1]
    exact lookupStr_insertStr_self _ _ _
  have hpc : lookupStr m1.phase_checkpoint phase = some (.dict d1) := by
    rw [hm1]
    exact lookupStr_insertStr_self _ _ _
  refine ⟨st1, st2, m2, ?_, ?_, ?_, ?_, fun k => lookupStr_dictUpdate d1 d2 hd2 k⟩
  · unfold ContextManagerState.save_phase_checkpoint
    rw [hm]
    dsimp only
    rw [h0]
    simp only [Option.isSome_none, Bool.false_eq_true, if_false,
      lookupStr_insertStr_self, hup1]
  · unfold ContextManagerState.save_phase_checkpoint
    rw [hm1lookup]
    dsimp only
    rw [hpc]
    simp only [Option.isSome_some, if_true]
    rw [lookupStr_insertStr_self]
  · rw [hst2]
    exact lookupStr_insertStr_self _ _ _
  · rw [hm2]
    exact lookupStr_insertStr_self _ _ _

/-- Witness for C4: saving `{"a": 1}` then `{"b": 2}` for the outline phase yields the
checkpoint `{"a": 1, "b": 2}`. -/
theorem save_phase_checkpoint_shallow_merge_witness :
    ∃ st1 st2 m2,
      ContextManagerState.save_phase_checkpoint exampleStateC4 "m1" "outline_generation"
        [("a", PyVal.num 1)] 1 = some st1 ∧
      st1.save_phase_checkpoint "m1" "outline_generation" [("b", PyVal.num 2)] 2
        = some st2 ∧
      lookupStr st2.missions "m1" = some m2 ∧
      lookupStr m2.phase_checkpoint "outline_generation"
        = some (PyVal.dict [("a", PyVal.num 1), ("b", PyVal.num 2)]) := by
  obtain ⟨st1, st2, m2, h1, h2, h3, h4, _⟩ :=
    save_phase_checkpoint_shallow_merge exampleStateC4 "m1" "outline_generation"
      exampleMission [("a", PyVal.num 1)] [("b", PyVal.num 2)] 1 2 rfl rfl
      (by decide) (by decide)
  exact ⟨st1, st2, m2, h1, h2, h3, h4⟩

/-- C6: on any allocator state satisfying the map-consistency invariant `RefInv`,
`get_original_reference_id` inverts `get_simple_reference_id`; a repeated call returns
the same cached id and leaves the state unchanged; a first call for a new original mints
`"ref" ++ (counter+1)` and bumps the counter; every previously assigned short id keeps
resolving to its original (short ids are never reused for a different original); and the
invariant is preserved. -/
theorem reference_id_roundtrip (m : MissionContext) (hInv : RefInv m) (x : String) :
    ((m.get_simple_reference_id x).2).get_original_reference_id
        (m.get_simple_reference_id x).1 = some x ∧
    ((m.get_simple_reference_id x).2).get_simple_reference_id x
        = ((m.get_simple_reference_id x).1, (m.get_simple_reference_id x).2) ∧
    (lookupStr m.reference_id_map x = Option.none →
        (m.get_simple_reference_id x).1 = "ref" ++ Nat.repr (m.reference_counter + 1) ∧
        (m.get_simple_reference_id x).2.reference_counter = m.reference_counter + 1) ∧
    (∀ s₀ y, m.get_original_reference_id s₀ = some y →
        ((m.get_simple_reference_id x).2).get_original_reference_id s₀ = some y) ∧
    RefInv (m.get_simple_reference_id x).2 := by
  cases hx : lookupStr m.reference_id_map x with
  | some s =>
      rw [get_simple_reference_id_cached m x s hx]
      refine ⟨hInv.1 x s hx, get_simple_reference_id_cached m x s hx, ?_,
        fun s₀ y h => h, hInv⟩
      intro h
      cases h
  | none =>
      rw [get_simple_reference_id_fresh m x hx]
      refine ⟨?_, ?_, fun _ => ⟨rfl, rfl⟩, ?_, ?_, ?_⟩
      · exact lookupStr_insertStr_self _ _ _
      · exact get_simple_reference_id_cached _ x _ (lookupStr_insertStr_self _ _ _)
      · intro s₀ y h₀
        obtain ⟨k, hk1, hk2, hkeq⟩ := hInv.2 s₀ y h₀
        have hne : s₀ ≠ "ref" ++ Nat.repr (m.reference_counter + 1) := by
          intro hcontra
          rw [hkeq] at hcontra
          have := refId_injective _ _ hcontra
          omega
        show lookupStr (insertStr m.reverse_reference_map _ x) s₀ = some y
        rw [lookupStr_insertStr_ne _ _ _ _ hne]
        exact h₀
      · intro x' s' h'
        simp only [MissionContext.get_original_reference_id] at h' ⊢
        by_cases hx' : x' = x
        · subst hx'
          rw [lookupStr_insertStr_self] at h'
          cases h'
          exact lookupStr_insertStr_self _ _ _
        · rw [lookupStr_insertStr_ne _ _ _ _ hx'] at h'
          have hold := hInv.1 x' s' h'
          obtain ⟨k, hk1, hk2, hkeq⟩ := hInv.2 s' x' hold
          have hne : s' ≠ "ref" ++ Nat.repr (m.reference_counter + 1) := by
            intro hcontra
            rw [hkeq] at hcontra
            have := refId_injective _ _ hcontra
            omega
          rw [lookupStr_insertStr_ne _ _ _ _ hne]
          exact hold
      · intro s₀ y h₀
        simp only [MissionContext.get_original_reference_id] at h₀ ⊢
        by_cases hs₀ : s₀ = "ref" ++ Nat.repr (m.reference_counter + 1)
        · refine ⟨m.reference_counter + 1, by omega, ?_, hs₀⟩
          show m.reference_counter + 1 ≤ m.reference_counter + 1
          omega
        · rw [lookupStr_insertStr_ne _ _ _ _ hs₀] at h₀
          obtain ⟨k, hk1, hk2, hkeq⟩ := hInv.2 s₀ y h₀
          refine ⟨k, hk1, ?_, hkeq⟩
          show k ≤ m.reference_counter + 1
          omega

/-- Witness for C6: on a fresh mission the invariant holds and the round trip recovers
the original id. -/
theorem reference_id_roundtrip_witness :
    RefInv exampleMission ∧
    ((exampleMission.get_simple_reference_id "uuid-1").2).get_original_reference_id
        (exampleMission.get_simple_reference_id "uuid-1").1 = some "uuid-1" := by
  have hInv : RefInv exampleMission := by
    constructor
    · intro x s h
      simp [exampleMission, lookupStr] at h
    · intro s y h
      simp [exampleMission, lookupStr] at h
  exact ⟨hInv, (reference_id_roundtrip exampleMission hInv "uuid-1").1⟩

/-- C5: `mark_phase_completed` is idempotent — starting from any manager state whose
missions have duplicate-free `completed_phases`, after any sequence of
`mark_phase_completed` calls every phase name occurs at most once in every mission's
`completed_phases`; and a call for a phase already present leaves the whole state
unchanged. -/
theorem mark_phase_completed_idempotent (st : ContextManagerState) (mid : String)
    (hall : ∀ id m, lookupStr st.missions id = some m → m.completed_phases.Nodup) :
    (∀ calls id m, lookupStr (markPhaseSeq mid calls st).missions id = some m →
        ∀ p, m.completed_phases.count p ≤ 1) ∧
    (∀ phase now m, lookupStr st.missions mid = some m → phase ∈ m.completed_phases →
        st.mark_phase_completed mid phase now = st) := by
  constructor
  · intro calls id m hm p
    exact List.nodup_iff_count_le_one.mp (markPhaseSeq_nodup mid calls st hall id m hm) p
  · intro phase now m hm hp
    unfold ContextManagerState.mark_phase_completed
    rw [hm]
    dsimp only
    rw [if_pos hp]

/-- Witness for C5: marking the already-completed analysis phase is a no-op, and after
marking the writing phase twice it is counted once. -/
theorem mark_phase_completed_idempotent_witness :
    (ContextManagerState.mark_phase_completed exampleStateC5 "m1" "initial_analysis" 3 =
      exampleStateC5) ∧
    List.count "writing" ["initial_analysis", "writing"] ≤ 1 := by
  have hall : ∀ id m, lookupStr exampleStateC5.missions id = some m →
      m.completed_phases.Nodup := by
    intro id m hm
    simp only [exampleStateC5, lookupStr] at hm
    split at hm
    · cases hm; decide
    · cases hm
  have h := mark_phase_completed_idempotent exampleStateC5 "m1" hall
  refine ⟨h.2 "initial_analysis" 3 _ rfl (by decide), ?_⟩
  exact h.1 [("writing", 1), ("writing", 2)] "m1" _ rfl "writing"

/-- C10: while a mission is paused or stopped, `log_execution_step` with an action other
than the pause/stop/resume actions returns without appending to the execution log or
modifying any other state (the whole manager state is unchanged). -/
theorem log_execution_step_skips_when_halted (st : ContextManagerState)
    (mid agent action : String) (is os : Option String) (stat : LogStatus)
    (em : Option String) (fi fo md tc : Option PyVal) (fint : Option (List String))
    (mkSer : PyVal → PyVal) (now : ℚ) (lid : String) (m : MissionContext)
    (hm : lookupStr st.missions mid = some m)
    (hstatus : m.status = .paused ∨ m.status = .stopped)
    (haction : action ∉ allowedWhenHalted) :
    st.log_execution_step mid agent action is os stat em fi fo md tc fint mkSer now lid
      = st := by
  unfold ContextManagerState.log_execution_step
  rw [hm]
  dsimp only
  rw [if_pos ⟨hstatus, haction⟩]

/-- Witness for C10: a research-action log on a paused mission changes nothing. -/
theorem log_execution_step_skips_when_halted_witness :
    ContextManagerState.log_execution_step exampleStateC10 "m1" "ResearchAgent"
        "Running Research" Option.none Option.none .running Option.none Option.none
        Option.none Option.none Option.none Option.none id 7 "log-1"
      = exampleStateC10 :=
  log_execution_step_skips_when_halted exampleStateC10 "m1" "ResearchAgent"
    "Running Research" Option.none Option.none .running Option.none Option.none
    Option.none Option.none Option.none Option.none id 7 "log-1" _ rfl
    (by decide) (by decide)

/-- C7 counterexample: updating an existing mission to the terminal status `stopped`
leaves the mission's Governor semaphore in place — the claim's "released on every
terminal status including stopped" fails at this input. -/
theorem update_mission_status_stopped_keeps_semaphore :
    lookupStr (ContextManagerState.update_mission_status exampleStateC7 "m1" .stopped
        Option.none 1 true).mission_semaphores "m1" = some 5 ∧
    Option.map MissionContext.status
        (lookupStr (ContextManagerState.update_mission_status exampleStateC7 "m1" .stopped
          Option.none 1 true).missions "m1") = some .stopped :=
  ⟨rfl, rfl⟩

/-- C7 (amended): for an existing mission, `update_mission_status` stores the new status,
sets `error_info` to the supplied error exactly when the new status is `failed` and clears
it otherwise, and removes the mission's Governor semaphore exactly on the statuses
`completed` and `failed` — on `stopped` (and every other status) the semaphore map is
untouched. -/
theorem update_mission_status_spec (st : ContextManagerState) (mid : String)
    (status : MissionStatus) (err : Option String) (now : ℚ) (dbOk : Bool)
    (m : MissionContext) (hm : lookupStr st.missions mid = some m) :
    (∃ m1, lookupStr (st.update_mission_status mid status err now dbOk).missions mid
        = some m1 ∧ m1.status = status ∧
        m1.error_info = (if status = .failed then err else Option.none)) ∧
    ((status = .completed ∨ status = .failed) →
        lookupStr (st.update_mission_status mid status err now dbOk).mission_semaphores mid
          = Option.none) ∧
    (¬(status = .completed ∨ status = .failed) →
        (st.update_mission_status mid status err now dbOk).mission_semaphores
          = st.mission_semaphores) := by
  unfold ContextManagerState.update_mission_status
  rw [hm]
  dsimp only
  refine ⟨⟨_, lookupStr_insertStr_self _ _ _, rfl, rfl⟩, ?_, ?_⟩
  · intro hterm
    by_cases hsem : (lookupStr st.mission_semaphores mid).isSome
    · rw [if_pos ⟨hterm, hsem⟩]
      exact lookupStr_removeStr_self _ _
    · have hcond : ¬((status = .completed ∨ status = .failed) ∧
          (lookupStr st.mission_semaphores mid).isSome) := fun h => hsem h.2
      rw [if_neg hcond]
      cases hval : lookupStr st.mission_semaphores mid with
      | none => rfl
      | some v => rw [hval] at hsem; simp at hsem
  · intro hterm
    have hcond : ¬((status = .completed ∨ status = .failed) ∧
        (lookupStr st.mission_semaphores mid).isSome) := fun h => hterm h.1
    rw [if_neg hcond]

/-- Witness for C7 (amended): completing a mission clears its semaphore, and its
`error_info` is cleared because the status is not `failed`. -/
theorem update_mission_status_spec_witness :
    lookupStr (ContextManagerState.update_mission_status exampleStateC7 "m1" .completed
        Option.none 2 true).mission_semaphores "m1" = Option.none := by
  have h := update_mission_status_spec exampleStateC7 "m1" .completed Option.none 2 true
    _ rfl
  exact h.2.1 (Or.inl rfl)

/-- C8 counterexample: when the store write inside `start_mission` fails, the freshly
created mission is removed from the in-memory cache again and the error is re-raised —
the mutation is rolled back and the call does not return normally. -/
theorem start_mission_db_failure_rolls_back :
    lookupStr (ContextManagerState.start_mission {} "req" "chat-1" Option.none Option.none
        true Option.none Option.none Option.none "mid-1" 0 false).1.missions "mid-1"
      = Option.none ∧
    (ContextManagerState.start_mission {} "req" "chat-1" Option.none Option.none
        true Option.none Option.none Option.none "mid-1" 0 false).2
      = Except.error "Database error creating mission" :=
  ⟨rfl, rfl⟩

/-- C8 (amended): a store write failure during `update_mission_status` is absorbed — the
in-memory result is identical to the successful-write result, the mutation is kept and
the call returns normally; `start_mission` is the exception: a store write failure there
removes the just-created mission from memory (restoring the previous mission map) and
re-raises the error to the caller. -/
theorem persistence_failure_behaviour (st : ContextManagerState) (mid : String)
    (status : MissionStatus) (err : Option String) (now : ℚ) (m : MissionContext)
    (hm : lookupStr st.missions mid = some m)
    (ur cid : String) (dgi dgn : Option String) (uws : Bool)
    (ms lc rp : Option PyVal) (nid : String) (t : ℚ)
    (hfresh : lookupStr st.missions nid = Option.none) :
    (st.update_mission_status mid status err now false
        = st.update_mission_status mid status err now true) ∧
    (∃ m1, lookupStr (st.update_mission_status mid status err now false).missions mid
        = some m1 ∧ m1.status = status) ∧
    ((st.start_mission ur cid dgi dgn uws ms lc rp nid t false).1.missions = st.missions) ∧
    ((st.start_mission ur cid dgi dgn uws ms lc rp nid t false).2
        = Except.error "Database error creating mission") := by
  refine ⟨rfl, ?_, ?_, rfl⟩
  · obtain ⟨m1, hl, hs, _⟩ :=
      (update_mission_status_spec st mid status err now false m hm).1
    exact ⟨m1, hl, hs⟩
  · show removeStr (insertStr st.missions nid _) nid = st.missions
    rw [removeStr_insertStr, removeStr_eq_of_lookup_none _ _ hfresh]

/-- Witness for C8 (amended): concrete failing-store runs on a one-mission state. -/
theorem persistence_failure_behaviour_witness :
    (ContextManagerState.update_mission_status exampleStateC10 "m1" .running Option.none 2
        false
      = ContextManagerState.update_mission_status exampleStateC10 "m1" .running Option.none
        2 true) ∧
    ((ContextManagerState.start_mission exampleStateC10 "r" "c" Option.none Option.none
        true Option.none Option.none Option.none "mid-9" 0 false).1.missions
      = exampleStateC10.missions) := by
  have h := persistence_failure_behaviour exampleStateC10 "m1" .running Option.none 2
    _ rfl "r" "c" Option.none Option.none true Option.none Option.none Option.none
    "mid-9" 0 rfl
  exact ⟨h.1, h.2.2.1⟩

end Maestro
